import Mathlib

/-!
Verification of the httpexpect assertion core: the `Number` and `Boolean`
value wrappers (`number.go`, `boolean.go`) over the shared failure chain.

The repository sources give `Number` and `Boolean` in full; the `chain`
type (`makeChain`, `chain.fail`) and the canonicalizer (`canonNumber`) are
not among the provided sources, so they are modelled from the spec
(sections 4.1 and 4.2) as noted on each definition.

Go `float64` values are embedded as `F64`: either NaN or a finite value
carried as a rational. The wrappers only compare numbers (no arithmetic),
and IEEE-754 comparison restricted to finite values agrees with the order
on the represented rationals, while every comparison involving NaN is
false; `F64` captures exactly that.
-/

/-- Embedding of a Go `float64` as used by the assertion core: NaN or a
finite value represented by the rational it denotes. Infinities are not
needed by the wrappers under verification. -/
inductive F64 where
  | nan : F64
  | val : ℚ → F64
deriving DecidableEq, Repr

/-- Go `==` on float64: false whenever either side is NaN. -/
def F64.beq : F64 → F64 → Bool
  | .val a, .val b => a == b
  | _, _ => false

/-- Go `<` on float64: false whenever either side is NaN. -/
def F64.lt : F64 → F64 → Bool
  | .val a, .val b => decide (a < b)
  | _, _ => false

/-- Go `<=` on float64: false whenever either side is NaN. -/
def F64.le : F64 → F64 → Bool
  | .val a, .val b => decide (a ≤ b)
  | _, _ => false

/-- Go `>` on float64. -/
def F64.gt (a b : F64) : Bool := F64.lt b a

/-- Go `>=` on float64. -/
def F64.ge (a b : F64) : Bool := F64.le b a

/-- A Go `interface{}` operand as passed to the numeric assertion methods:
a float64, an int32 (always exactly convertible to float64), or one of the
non-numeric shapes that `canonNumber` rejects. -/
inductive GoValue where
  | goFloat64 : F64 → GoValue
  | goInt32 : Int → GoValue
  | goString : String → GoValue
  | goBool : Bool → GoValue
  | goNil : GoValue
deriving DecidableEq, Repr

/-- Whether `canonNumber` accepts the operand. -/
def GoValue.isNumeric : GoValue → Bool
  | .goFloat64 _ => true
  | .goInt32 _ => true
  | _ => false

/-- Failure messages passed to `chain.fail`, kept structured: each
constructor stands for one of the distinct format strings in the source
together with its arguments. -/
inductive FailMsg where
  | notNumber : FailMsg
  | numberEqual (expected got : F64)
  | numberNotEqual (expected got : F64)
  | numberGt (expected got : F64)
  | numberGe (expected got : F64)
  | numberLt (expected got : F64)
  | numberLe (expected got : F64)
  | numberInRange (lo hi got : F64)
  | booleanEqual (expected got : Bool)
  | booleanNotEqual (expected got : Bool)
deriving DecidableEq, Repr

/-- Modelled from the spec: the `chain` type of the failure core
(`chain.go` is not among the provided sources). Spec section 3:
`{reporter: Reporter, failed: bool}`. The reporter handle is modelled by
the observable log of messages delivered to it (`reports`). -/
structure Chain where
  failed : Bool
  reports : List FailMsg
deriving DecidableEq, Repr

/-- Modelled from the spec: `makeChain(reporter)` yields a fresh, unfailed
chain with no failures reported yet. -/
def makeChain : Chain := ⟨false, []⟩

/-- Modelled from the spec: `chain.fail` (section 4.1 and section 7: once
failed, a chain suppresses all further reporting from itself). On an
unfailed chain it marks the chain failed and invokes the reporter once;
on an already-failed chain it is a no-op. -/
def Chain.fail (c : Chain) (m : FailMsg) : Chain :=
  if c.failed then c else ⟨true, c.reports ++ [m]⟩

/-- Modelled from the spec: `canonNumber(chain, raw) -> (float64, ok)`
(section 4.2; `canon.go` is not among the provided sources): accepts any
numeric scalar type and converts it to float64; on non-numeric input it
calls `chain.fail` with a descriptive message and returns `ok = false`.
An int32 converts exactly to the float64 of the same value. -/
def canonNumber (c : Chain) (g : GoValue) : Chain × Option F64 :=
  match g with
  | .goFloat64 f => (c, some f)
  | .goInt32 k => (c, some (.val (k : ℚ)))
  | _ => (c.fail .notNumber, none)

/-- `Number` from `number.go`: a chain plus the attached float64 value. -/
structure Number where
  chain : Chain
  value : F64
deriving DecidableEq, Repr

/-- `NewNumber` from `number.go`. -/
def NewNumber (value : F64) : Number := ⟨makeChain, value⟩

/-- `Number.Raw` from `number.go`. -/
def Number.Raw (n : Number) : F64 := n.value

/-- `Number.Equal` from `number.go`. -/
def Number.Equal (n : Number) (value : GoValue) : Number :=
  match canonNumber n.chain value with
  | (c, none) => ⟨c, n.value⟩
  | (c, some v) =>
      if !(F64.beq n.value v) then ⟨c.fail (.numberEqual v n.value), n.value⟩
      else ⟨c, n.value⟩

/-- `Number.NotEqual` from `number.go`. -/
def Number.NotEqual (n : Number) (value : GoValue) : Number :=
  match canonNumber n.chain value with
  | (c, none) => ⟨c, n.value⟩
  | (c, some v) =>
      if !(!(F64.beq n.value v)) then ⟨c.fail (.numberNotEqual v n.value), n.value⟩
      else ⟨c, n.value⟩

/-- `Number.Gt` from `number.go`. -/
def Number.Gt (n : Number) (value : GoValue) : Number :=
  match canonNumber n.chain value with
  | (c, none) => ⟨c, n.value⟩
  | (c, some v) =>
      if !(F64.gt n.value v) then ⟨c.fail (.numberGt v n.value), n.value⟩
      else ⟨c, n.value⟩

/-- `Number.Ge` from `number.go`. -/
def Number.Ge (n : Number) (value : GoValue) : Number :=
  match canonNumber n.chain value with
  | (c, none) => ⟨c, n.value⟩
  | (c, some v) =>
      if !(F64.ge n.value v) then ⟨c.fail (.numberGe v n.value), n.value⟩
      else ⟨c, n.value⟩

/-- `Number.Lt` from `number.go`. -/
def Number.Lt (n : Number) (value : GoValue) : Number :=
  match canonNumber n.chain value with
  | (c, none) => ⟨c, n.value⟩
  | (c, some v) =>
      if !(F64.lt n.value v) then ⟨c.fail (.numberLt v n.value), n.value⟩
      else ⟨c, n.value⟩

/-- `Number.Le` from `number.go`. -/
def Number.Le (n : Number) (value : GoValue) : Number :=
  match canonNumber n.chain value with
  | (c, none) => ⟨c, n.value⟩
  | (c, some v) =>
      if !(F64.le n.value v) then ⟨c.fail (.numberLe v n.value), n.value⟩
      else ⟨c, n.value⟩

/-- `Number.InRange` from `number.go`: canonicalizes `min`, then `max`,
returning after a failed conversion, then checks the inclusive range. -/
def Number.InRange (n : Number) (min max : GoValue) : Number :=
  match canonNumber n.chain min with
  | (c, none) => ⟨c, n.value⟩
  | (c, some a) =>
      match canonNumber c max with
      | (c2, none) => ⟨c2, n.value⟩
      | (c2, some b) =>
          if !(F64.ge n.value a && F64.le n.value b) then
            ⟨c2.fail (.numberInRange a b n.value), n.value⟩
          else ⟨c2, n.value⟩

/-- `Boolean` from `boolean.go`: a chain plus the attached bool value. -/
structure Boolean where
  chain : Chain
  value : Bool
deriving DecidableEq, Repr

/-- `NewBoolean` from `boolean.go`. -/
def NewBoolean (value : Bool) : Boolean := ⟨makeChain, value⟩

/-- `Boolean.Raw` from `boolean.go`. -/
def Boolean.Raw (b : Boolean) : Bool := b.value

/-- `Boolean.Equal` from `boolean.go`. -/
def Boolean.Equal (b : Boolean) (value : Bool) : Boolean :=
  if !(b.value == value) then ⟨b.chain.fail (.booleanEqual value b.value), b.value⟩
  else b

/-- `Boolean.NotEqual` from `boolean.go`. -/
def Boolean.NotEqual (b : Boolean) (value : Bool) : Boolean :=
  if !(!(b.value == value)) then ⟨b.chain.fail (.booleanNotEqual value b.value), b.value⟩
  else b

/-- `Boolean.True` from `boolean.go`: delegates to `Equal true`. -/
def Boolean.True (b : Boolean) : Boolean := b.Equal true

/-- `Boolean.False` from `boolean.go`: delegates to `Equal false`. -/
def Boolean.False (b : Boolean) : Boolean := b.Equal false

/-! Helper lemmas shared by several results. -/

theorem Chain.fail_failed (c : Chain) (m : FailMsg) : (c.fail m).failed = true := by
  unfold Chain.fail
  split <;> simp_all

theorem Chain.fail_of_failed (c : Chain) (m : FailMsg) (h : c.failed = true) :
    c.fail m = c := by
  simp [Chain.fail, h]

theorem Chain.fail_of_ok (c : Chain) (m : FailMsg) (h : c.failed = false) :
    c.fail m = ⟨true, c.reports ++ [m]⟩ := by
  simp [Chain.fail, h]

theorem Chain.fail_reports_le (c : Chain) (m : FailMsg) :
    (c.fail m).reports.length ≤ c.reports.length + 1 := by
  unfold Chain.fail
  split <;> simp

/-- A single wrapper operation moves the chain by at most one `fail` call:
it either leaves the chain alone or applies `Chain.fail` once, matching the
source pattern in which every `chain.fail` is immediately followed by a
`return` of the receiver. -/
def chainStep (c c2 : Chain) : Prop := c2 = c ∨ ∃ m, c2 = c.fail m
theorem Number.Equal_step (n : Number) (g : GoValue) :
    (n.Equal g).value = n.value ∧ chainStep n.chain (n.Equal g).chain := by
  cases g <;> simp only [Number.Equal, canonNumber, chainStep] <;>
    refine ⟨?_, ?_⟩ <;>
    first
    | trivial
    | (split <;> trivial)
    | exact Or.inr ⟨_, rfl⟩
    | (split <;> first | exact Or.inr ⟨_, rfl⟩ | exact Or.inl rfl)

theorem Number.NotEqual_step (n : Number) (g : GoValue) :
    (n.NotEqual g).value = n.value ∧ chainStep n.chain (n.NotEqual g).chain := by
  cases g <;> simp only [Number.NotEqual, canonNumber, chainStep] <;>
    refine ⟨?_, ?_⟩ <;>
    first
    | trivial
    | (split <;> trivial)
    | exact Or.inr ⟨_, rfl⟩
    | (split <;> first | exact Or.inr ⟨_, rfl⟩ | exact Or.inl rfl)

theorem Number.Gt_step (n : Number) (g : GoValue) :
    (n.Gt g).value = n.value ∧ chainStep n.chain (n.Gt g).chain := by
  cases g <;> simp only [Number.Gt, canonNumber, chainStep] <;>
    refine ⟨?_, ?_⟩ <;>
    first
    | trivial
    | (split <;> trivial)
    | exact Or.inr ⟨_, rfl⟩
    | (split <;> first | exact Or.inr ⟨_, rfl⟩ | exact Or.inl rfl)

theorem Number.Ge_step (n : Number) (g : GoValue) :
    (n.Ge g).value = n.value ∧ chainStep n.chain (n.Ge g).chain := by
  cases g <;> simp only [Number.Ge, canonNumber, chainStep] <;>
    refine ⟨?_, ?_⟩ <;>
    first
    | trivial
    | (split <;> trivial)
    | exact Or.inr ⟨_, rfl⟩
    | (split <;> first | exact Or.inr ⟨_, rfl⟩ | exact Or.inl rfl)

theorem Number.Lt_step (n : Number) (g : GoValue) :
    (n.Lt g).value = n.value ∧ chainStep n.chain (n.Lt g).chain := by
  cases g <;> simp only [Number.Lt, canonNumber, chainStep] <;>
    refine ⟨?_, ?_⟩ <;>
    first
    | trivial
    | (split <;> trivial)
    | exact Or.inr ⟨_, rfl⟩
    | (split <;> first | exact Or.inr ⟨_, rfl⟩ | exact Or.inl rfl)

theorem Number.Le_step (n : Number) (g : GoValue) :
    (n.Le g).value = n.value ∧ chainStep n.chain (n.Le g).chain := by
  cases g <;> simp only [Number.Le, canonNumber, chainStep] <;>
    refine ⟨?_, ?_⟩ <;>
    first
    | trivial
    | (split <;> trivial)
    | exact Or.inr ⟨_, rfl⟩
    | (split <;> first | exact Or.inr ⟨_, rfl⟩ | exact Or.inl rfl)

theorem Number.InRange_step (n : Number) (gmin gmax : GoValue) :
    (n.InRange gmin gmax).value = n.value ∧
      chainStep n.chain (n.InRange gmin gmax).chain := by
  cases gmin <;> cases gmax <;>
    simp only [Number.InRange, canonNumber, chainStep] <;>
    refine ⟨?_, ?_⟩ <;>
    first
    | trivial
    | (split <;> trivial)
    | exact Or.inr ⟨_, rfl⟩
    | (split <;> first | exact Or.inr ⟨_, rfl⟩ | exact Or.inl rfl)

theorem booleanEqual_step (b : Boolean) (v : Bool) :
    (b.Equal v).value = b.value ∧ chainStep b.chain (b.Equal v).chain := by
  simp only [Boolean.Equal, chainStep]
  refine ⟨?_, ?_⟩ <;>
    first
    | trivial
    | (split <;> trivial)
    | exact Or.inr ⟨_, rfl⟩
    | (split <;> first | exact Or.inr ⟨_, rfl⟩ | exact Or.inl rfl)

theorem booleanNotEqual_step (b : Boolean) (v : Bool) :
    (b.NotEqual v).value = b.value ∧ chainStep b.chain (b.NotEqual v).chain := by
  simp only [Boolean.NotEqual, chainStep]
  refine ⟨?_, ?_⟩ <;>
    first
    | trivial
    | (split <;> trivial)
    | exact Or.inr ⟨_, rfl⟩
    | (split <;> first | exact Or.inr ⟨_, rfl⟩ | exact Or.inl rfl)

theorem Number.Equal_inert (n : Number) (g : GoValue) (h : n.chain.failed = true) :
    n.Equal g = n := by
  cases g <;> simp [Number.Equal, canonNumber, Chain.fail, h]

theorem Number.NotEqual_inert (n : Number) (g : GoValue) (h : n.chain.failed = true) :
    n.NotEqual g = n := by
  cases g <;> simp [Number.NotEqual, canonNumber, Chain.fail, h]

theorem Number.Gt_inert (n : Number) (g : GoValue) (h : n.chain.failed = true) :
    n.Gt g = n := by
  cases g <;> simp [Number.Gt, canonNumber, Chain.fail, h]

theorem Number.Ge_inert (n : Number) (g : GoValue) (h : n.chain.failed = true) :
    n.Ge g = n := by
  cases g <;> simp [Number.Ge, canonNumber, Chain.fail, h]

theorem Number.Lt_inert (n : Number) (g : GoValue) (h : n.chain.failed = true) :
    n.Lt g = n := by
  cases g <;> simp [Number.Lt, canonNumber, Chain.fail, h]

theorem Number.Le_inert (n : Number) (g : GoValue) (h : n.chain.failed = true) :
    n.Le g = n := by
  cases g <;> simp [Number.Le, canonNumber, Chain.fail, h]

theorem Number.InRange_inert (n : Number) (gmin gmax : GoValue)
    (h : n.chain.failed = true) : n.InRange gmin gmax = n := by
  cases gmin <;> cases gmax <;>
    simp [Number.InRange, canonNumber, Chain.fail, h]

theorem booleanEqual_inert (b : Boolean) (v : Bool) (h : b.chain.failed = true) :
    b.Equal v = b := by
  simp [Boolean.Equal, Chain.fail, h]

theorem booleanNotEqual_inert (b : Boolean) (v : Bool) (h : b.chain.failed = true) :
    b.NotEqual v = b := by
  simp [Boolean.NotEqual, Chain.fail, h]

/-- One queued `Number` assertion call, used to reason about arbitrary
sequences of operations applied to a wrapper. -/
inductive NumberOp where
  | opEqual (g : GoValue)
  | opNotEqual (g : GoValue)
  | opGt (g : GoValue)
  | opGe (g : GoValue)
  | opLt (g : GoValue)
  | opLe (g : GoValue)
  | opInRange (gmin gmax : GoValue)
deriving DecidableEq, Repr

/-- Dispatch one queued `Number` assertion call. -/
def applyNumberOp (n : Number) : NumberOp → Number
  | .opEqual g => n.Equal g
  | .opNotEqual g => n.NotEqual g
  | .opGt g => n.Gt g
  | .opGe g => n.Ge g
  | .opLt g => n.Lt g
  | .opLe g => n.Le g
  | .opInRange gmin gmax => n.InRange gmin gmax

/-- Run a sequence of `Number` assertion calls left to right. -/
def runNumberOps (n : Number) (ops : List NumberOp) : Number :=
  ops.foldl applyNumberOp n

/-- One queued `Boolean` assertion call. -/
inductive BooleanOp where
  | opEqual (v : Bool)
  | opNotEqual (v : Bool)
  | opTrue
  | opFalse
deriving DecidableEq, Repr

/-- Dispatch one queued `Boolean` assertion call. -/
def applyBooleanOp (b : Boolean) : BooleanOp → Boolean
  | .opEqual v => b.Equal v
  | .opNotEqual v => b.NotEqual v
  | .opTrue => b.True
  | .opFalse => b.False

/-- Run a sequence of `Boolean` assertion calls left to right. -/
def runBooleanOps (b : Boolean) (ops : List BooleanOp) : Boolean :=
  ops.foldl applyBooleanOp b

theorem applyNumberOp_value (n : Number) (op : NumberOp) :
    (applyNumberOp n op).value = n.value := by
  cases op with
  | opEqual g => exact (Number.Equal_step n g).1
  | opNotEqual g => exact (Number.NotEqual_step n g).1
  | opGt g => exact (Number.Gt_step n g).1
  | opGe g => exact (Number.Ge_step n g).1
  | opLt g => exact (Number.Lt_step n g).1
  | opLe g => exact (Number.Le_step n g).1
  | opInRange gmin gmax => exact (Number.InRange_step n gmin gmax).1

theorem applyBooleanOp_value (b : Boolean) (op : BooleanOp) :
    (applyBooleanOp b op).value = b.value := by
  cases op with
  | opEqual v => exact (booleanEqual_step b v).1
  | opNotEqual v => exact (booleanNotEqual_step b v).1
  | opTrue => exact (booleanEqual_step b true).1
  | opFalse => exact (booleanEqual_step b false).1

theorem runNumberOps_value (n : Number) (ops : List NumberOp) :
    (runNumberOps n ops).value = n.value := by
  induction ops generalizing n with
  | nil => rfl
  | cons op rest ih =>
      show (runNumberOps (applyNumberOp n op) rest).value = n.value
      rw [ih, applyNumberOp_value]

theorem runBooleanOps_value (b : Boolean) (ops : List BooleanOp) :
    (runBooleanOps b ops).value = b.value := by
  induction ops generalizing b with
  | nil => rfl
  | cons op rest ih =>
      show (runBooleanOps (applyBooleanOp b op) rest).value = b.value
      rw [ih, applyBooleanOp_value]

/-! Claims. -/

/-- C1: once a chain's `failed` flag is true, every `Number` and `Boolean`
assertion operation on a wrapper carrying that chain is fully inert: it
returns the receiver unchanged — same payload, same failed flag, and no
additional message is delivered to the reporter. -/
theorem failed_chain_suppresses_operations (n : Number) (b : Boolean)
    (g g2 : GoValue) (v : Bool)
    (hn : n.chain.failed = true) (hb : b.chain.failed = true) :
    n.Equal g = n ∧ n.NotEqual g = n ∧ n.Gt g = n ∧ n.Ge g = n ∧
    n.Lt g = n ∧ n.Le g = n ∧ n.InRange g g2 = n ∧
    b.Equal v = b ∧ b.NotEqual v = b ∧ b.True = b ∧ b.False = b :=
  ⟨Number.Equal_inert n g hn, Number.NotEqual_inert n g hn,
   Number.Gt_inert n g hn, Number.Ge_inert n g hn,
   Number.Lt_inert n g hn, Number.Le_inert n g hn,
   Number.InRange_inert n g g2 hn,
   booleanEqual_inert b v hb, booleanNotEqual_inert b v hb,
   booleanEqual_inert b true hb, booleanEqual_inert b false hb⟩

/-- Witness for C1 at a concrete failed chain: a failed Number wrapper is
returned unchanged by `Equal`, so no new report is made. -/
theorem failed_chain_suppresses_operations_witness :
    Number.Equal ⟨⟨true, [FailMsg.notNumber]⟩, F64.val 5⟩
        (GoValue.goFloat64 (F64.val 7)) =
      ⟨⟨true, [FailMsg.notNumber]⟩, F64.val 5⟩ ∧
    Boolean.Equal ⟨⟨true, [FailMsg.notNumber]⟩, true⟩ false =
      ⟨⟨true, [FailMsg.notNumber]⟩, true⟩ :=
  ⟨(failed_chain_suppresses_operations ⟨⟨true, [FailMsg.notNumber]⟩, F64.val 5⟩
      ⟨⟨true, [FailMsg.notNumber]⟩, true⟩ (GoValue.goFloat64 (F64.val 7))
      (GoValue.goInt32 3) false rfl rfl).1,
   (failed_chain_suppresses_operations ⟨⟨true, [FailMsg.notNumber]⟩, F64.val 5⟩
      ⟨⟨true, [FailMsg.notNumber]⟩, true⟩ (GoValue.goFloat64 (F64.val 7))
      (GoValue.goInt32 3) false rfl rfl).2.2.2.2.2.2.2.1⟩

/-- C6: `Boolean.True` and `Boolean.False` delegate to `Boolean.Equal`:
they agree with `Equal true` and `Equal false` as whole results — same
chain transition, same reporter behaviour, same returned wrapper. -/
theorem boolean_true_false_delegate_to_equal (b : Boolean) :
    b.True = b.Equal true ∧ b.False = b.Equal false :=
  ⟨rfl, rfl⟩

/-- C7: every assertion operation of the core is a total function: whether
or not the check fails, it returns a structurally valid wrapper that keeps
the receiver's payload, and the chain advances by at most a single `fail`
call immediately followed by the normal return (no non-local control
transfer inside the core). -/
theorem operations_total_and_structurally_valid (n : Number) (b : Boolean)
    (g g2 : GoValue) (v : Bool) :
    ((n.Equal g).value = n.value ∧ chainStep n.chain (n.Equal g).chain) ∧
    ((n.NotEqual g).value = n.value ∧ chainStep n.chain (n.NotEqual g).chain) ∧
    ((n.Gt g).value = n.value ∧ chainStep n.chain (n.Gt g).chain) ∧
    ((n.Ge g).value = n.value ∧ chainStep n.chain (n.Ge g).chain) ∧
    ((n.Lt g).value = n.value ∧ chainStep n.chain (n.Lt g).chain) ∧
    ((n.Le g).value = n.value ∧ chainStep n.chain (n.Le g).chain) ∧
    ((n.InRange g g2).value = n.value ∧ chainStep n.chain (n.InRange g g2).chain) ∧
    ((b.Equal v).value = b.value ∧ chainStep b.chain (b.Equal v).chain) ∧
    ((b.NotEqual v).value = b.value ∧ chainStep b.chain (b.NotEqual v).chain) ∧
    (b.True.value = b.value ∧ chainStep b.chain b.True.chain) ∧
    (b.False.value = b.value ∧ chainStep b.chain b.False.chain) :=
  ⟨Number.Equal_step n g, Number.NotEqual_step n g, Number.Gt_step n g,
   Number.Ge_step n g, Number.Lt_step n g, Number.Le_step n g,
   Number.InRange_step n g g2, booleanEqual_step b v,
   booleanNotEqual_step b v, booleanEqual_step b true,
   booleanEqual_step b false⟩

/-- C8: the payload is immutable: an arbitrary sequence of assertion
operations, succeeding or failing, never changes the wrapped value, and
`Raw` on a wrapper built by the constructor and then exercised by any
sequence of operations still returns the constructed value. -/
theorem payload_immutable_raw_stable (x : F64) (y : Bool)
    (ops : List NumberOp) (bops : List BooleanOp) (n : Number) (b : Boolean) :
    (runNumberOps n ops).Raw = n.Raw ∧ (runBooleanOps b bops).Raw = b.Raw ∧
    (runNumberOps (NewNumber x) ops).Raw = x ∧
    (runBooleanOps (NewBoolean y) bops).Raw = y :=
  ⟨runNumberOps_value n ops, runBooleanOps_value b bops,
   runNumberOps_value (NewNumber x) ops, runBooleanOps_value (NewBoolean y) bops⟩

theorem canonNumber_non_numeric (c : Chain) (g : GoValue)
    (h : g.isNumeric = false) :
    canonNumber c g = (c.fail FailMsg.notNumber, none) := by
  cases g <;> simp_all [GoValue.isNumeric, canonNumber]

theorem canonNumber_numeric (c : Chain) (g : GoValue) (h : g.isNumeric = true) :
    ∃ w, canonNumber c g = (c, some w) := by
  cases g <;> simp_all [GoValue.isNumeric, canonNumber]

theorem F64.le_le_lt_absurd (a x b : F64) (h1 : F64.le a x = true)
    (h2 : F64.le x b = true) (h3 : F64.lt b a = true) : False := by
  cases a <;> cases x <;> cases b <;> simp_all [F64.le, F64.lt] <;> linarith

/-- C2: a non-numeric operand to any Number comparison makes the operation
fail the chain and return the receiver with the payload untouched, without
performing the comparison: the result is exactly the receiver with one
`fail FailMsg.notNumber` applied to its chain, independent of the payload
and of any other operand. -/
theorem non_numeric_operand_fails_chain_no_comparison (n : Number)
    (g gmin gmax : GoValue)
    (hg : g.isNumeric = false) (hmin : gmin.isNumeric = true)
    (hmax : gmax.isNumeric = false) :
    n.Equal g = ⟨n.chain.fail FailMsg.notNumber, n.value⟩ ∧
    n.NotEqual g = ⟨n.chain.fail FailMsg.notNumber, n.value⟩ ∧
    n.Gt g = ⟨n.chain.fail FailMsg.notNumber, n.value⟩ ∧
    n.Ge g = ⟨n.chain.fail FailMsg.notNumber, n.value⟩ ∧
    n.Lt g = ⟨n.chain.fail FailMsg.notNumber, n.value⟩ ∧
    n.Le g = ⟨n.chain.fail FailMsg.notNumber, n.value⟩ ∧
    n.InRange g gmax = ⟨n.chain.fail FailMsg.notNumber, n.value⟩ ∧
    n.InRange gmin gmax = ⟨n.chain.fail FailMsg.notNumber, n.value⟩ ∧
    (n.chain.fail FailMsg.notNumber).failed = true := by
  have hcg := canonNumber_non_numeric n.chain g hg
  obtain ⟨w, hw⟩ := canonNumber_numeric n.chain gmin hmin
  have hcmax := canonNumber_non_numeric n.chain gmax hmax
  refine ⟨?_, ?_, ?_, ?_, ?_, ?_, ?_, ?_,
    Chain.fail_failed n.chain FailMsg.notNumber⟩
  · simp only [Number.Equal, hcg]
  · simp only [Number.NotEqual, hcg]
  · simp only [Number.Gt, hcg]
  · simp only [Number.Ge, hcg]
  · simp only [Number.Lt, hcg]
  · simp only [Number.Le, hcg]
  · simp only [Number.InRange, hcg]
  · simp only [Number.InRange, hw, hcmax]

/-- Witness for C2: a string operand to Equal on a fresh Number fails the
chain once and keeps the payload. -/
theorem non_numeric_operand_witness :
    Number.Equal ⟨⟨false, []⟩, F64.val 2⟩ (GoValue.goString "x") =
      ⟨Chain.fail ⟨false, []⟩ FailMsg.notNumber, F64.val 2⟩ :=
  (non_numeric_operand_fails_chain_no_comparison ⟨⟨false, []⟩, F64.val 2⟩
    (GoValue.goString "x") (GoValue.goInt32 1) GoValue.goNil
    rfl rfl rfl).1

/-- C3: with numeric bounds canonicalized to `a` and `b`, `InRange`
succeeds exactly when `a ≤ x` and `x ≤ b` (inclusive bounds); there is no
validation that `a ≤ b`, and inverted bounds (`b < a`) make the check
unconditionally false, failing the chain. -/
theorem inrange_inclusive_no_bound_validation (n : Number)
    (gmin gmax : GoValue) (a b : F64)
    (h : n.chain.failed = false)
    (ha : canonNumber n.chain gmin = (n.chain, some a))
    (hb : canonNumber n.chain gmax = (n.chain, some b)) :
    ((n.InRange gmin gmax).chain.failed = false ↔
      (F64.le a n.value && F64.le n.value b) = true) ∧
    ((F64.le a n.value && F64.le n.value b) = true → n.InRange gmin gmax = n) ∧
    (F64.lt b a = true → (n.InRange gmin gmax).chain.failed = true) := by
  have e : n.InRange gmin gmax =
      if !(F64.le a n.value && F64.le n.value b) then
        ⟨n.chain.fail (FailMsg.numberInRange a b n.value), n.value⟩
      else ⟨n.chain, n.value⟩ := by
    simp only [Number.InRange, ha, hb, F64.ge]
  rw [e]
  cases hc : (F64.le a n.value && F64.le n.value b) with
  | false =>
      refine ⟨?_, ?_, ?_⟩
      · simp [hc, Chain.fail_failed]
      · intro hcontra
        exact absurd hcontra (by simp)
      · intro _
        simp [hc, Chain.fail_failed]
  | true =>
      refine ⟨?_, ?_, ?_⟩
      · simp [hc, h]
      · intro _
        simp [hc]
      · intro hba
        obtain ⟨h1, h2⟩ := Bool.and_eq_true_iff.mp hc
        exact (F64.le_le_lt_absurd a n.value b h1 h2 hba).elim

/-- Witness for C3: Number(10).InRange(5, 20) succeeds and returns the
wrapper unchanged; Number(10).InRange(20, 5) fails the chain. -/
theorem inrange_inclusive_witness :
    Number.InRange ⟨⟨false, []⟩, F64.val 10⟩
        (GoValue.goInt32 5) (GoValue.goInt32 20) = ⟨⟨false, []⟩, F64.val 10⟩ ∧
    (Number.InRange ⟨⟨false, []⟩, F64.val 10⟩
        (GoValue.goInt32 20) (GoValue.goInt32 5)).chain.failed = true :=
  ⟨(inrange_inclusive_no_bound_validation ⟨⟨false, []⟩, F64.val 10⟩
      (GoValue.goInt32 5) (GoValue.goInt32 20) (F64.val 5) (F64.val 20)
      rfl (by decide) (by decide)).2.1 (by decide),
   (inrange_inclusive_no_bound_validation ⟨⟨false, []⟩, F64.val 10⟩
      (GoValue.goInt32 20) (GoValue.goInt32 5) (F64.val 20) (F64.val 5)
      rfl (by decide) (by decide)).2.2 (by decide)⟩

/-- C4: `Equal` and `NotEqual` compare under exact float64 equality after
canonicalization of the operand — no epsilon tolerance — and operands of
differing numeric representations with the same value, such as int32 123
and float64 123.0, are indistinguishable after canonicalization. -/
theorem equal_exact_after_canonicalization (n : Number) (g : GoValue) (w : F64)
    (h : n.chain.failed = false)
    (hg : canonNumber n.chain g = (n.chain, some w)) :
    ((n.Equal g).chain.failed = false ↔ F64.beq n.value w = true) ∧
    ((n.NotEqual g).chain.failed = false ↔ F64.beq n.value w = false) ∧
    n.Equal (GoValue.goInt32 123) = n.Equal (GoValue.goFloat64 (F64.val 123)) := by
  have e1 : n.Equal g =
      if !(F64.beq n.value w) then
        ⟨n.chain.fail (FailMsg.numberEqual w n.value), n.value⟩
      else ⟨n.chain, n.value⟩ := by
    simp only [Number.Equal, hg]
  have e2 : n.NotEqual g =
      if !(!(F64.beq n.value w)) then
        ⟨n.chain.fail (FailMsg.numberNotEqual w n.value), n.value⟩
      else ⟨n.chain, n.value⟩ := by
    simp only [Number.NotEqual, hg]
  have e3 : ((123 : Int) : ℚ) = (123 : ℚ) := by norm_num
  refine ⟨?_, ?_, ?_⟩
  · rw [e1]
    cases hbq : F64.beq n.value w <;> simp [hbq, Chain.fail_failed, h]
  · rw [e2]
    cases hbq : F64.beq n.value w <;> simp [hbq, Chain.fail_failed, h]
  · simp only [Number.Equal, canonNumber, e3]

/-- Witness for C4: a Number holding 123 compares the operands int32 123
and float64 123.0 identically, and Equal on them succeeds. -/
theorem equal_exact_witness :
    Number.Equal ⟨⟨false, []⟩, F64.val 123⟩ (GoValue.goInt32 123) =
      Number.Equal ⟨⟨false, []⟩, F64.val 123⟩ (GoValue.goFloat64 (F64.val 123)) ∧
    (Number.Equal ⟨⟨false, []⟩, F64.val 123⟩ (GoValue.goInt32 123)).chain.failed
      = false :=
  ⟨(equal_exact_after_canonicalization ⟨⟨false, []⟩, F64.val 123⟩
      (GoValue.goInt32 123) (F64.val 123) rfl (by decide)).2.2,
   (equal_exact_after_canonicalization ⟨⟨false, []⟩, F64.val 123⟩
      (GoValue.goInt32 123) (F64.val 123) rfl (by decide)).1.mpr (by decide)⟩

/-- C5: with a numeric operand canonicalized to `w`, `Gt`, `Ge`, `Lt` and
`Le` succeed exactly on the corresponding float64 comparison against the
payload; on violation each records exactly one failure message and returns
the receiver with the payload untouched. -/
theorem order_comparisons_exact (n : Number) (g : GoValue) (w : F64)
    (h : n.chain.failed = false)
    (hg : canonNumber n.chain g = (n.chain, some w)) :
    ((n.Gt g).chain.failed = false ↔ F64.gt n.value w = true) ∧
    ((n.Ge g).chain.failed = false ↔ F64.ge n.value w = true) ∧
    ((n.Lt g).chain.failed = false ↔ F64.lt n.value w = true) ∧
    ((n.Le g).chain.failed = false ↔ F64.le n.value w = true) ∧
    (F64.gt n.value w = false →
      (n.Gt g).chain.reports = n.chain.reports ++ [FailMsg.numberGt w n.value] ∧
      (n.Gt g).value = n.value) ∧
    (F64.ge n.value w = false →
      (n.Ge g).chain.reports = n.chain.reports ++ [FailMsg.numberGe w n.value] ∧
      (n.Ge g).value = n.value) ∧
    (F64.lt n.value w = false →
      (n.Lt g).chain.reports = n.chain.reports ++ [FailMsg.numberLt w n.value] ∧
      (n.Lt g).value = n.value) ∧
    (F64.le n.value w = false →
      (n.Le g).chain.reports = n.chain.reports ++ [FailMsg.numberLe w n.value] ∧
      (n.Le g).value = n.value) := by
  have e1 : n.Gt g =
      if !(F64.gt n.value w) then
        ⟨n.chain.fail (FailMsg.numberGt w n.value), n.value⟩
      else ⟨n.chain, n.value⟩ := by
    simp only [Number.Gt, hg]
  have e2 : n.Ge g =
      if !(F64.ge n.value w) then
        ⟨n.chain.fail (FailMsg.numberGe w n.value), n.value⟩
      else ⟨n.chain, n.value⟩ := by
    simp only [Number.Ge, hg]
  have e3 : n.Lt g =
      if !(F64.lt n.value w) then
        ⟨n.chain.fail (FailMsg.numberLt w n.value), n.value⟩
      else ⟨n.chain, n.value⟩ := by
    simp only [Number.Lt, hg]
  have e4 : n.Le g =
      if !(F64.le n.value w) then
        ⟨n.chain.fail (FailMsg.numberLe w n.value), n.value⟩
      else ⟨n.chain, n.value⟩ := by
    simp only [Number.Le, hg]
  refine ⟨?_, ?_, ?_, ?_, ?_, ?_, ?_, ?_⟩
  · rw [e1]
    cases hcmp : F64.gt n.value w <;> simp [hcmp, Chain.fail_failed, h]
  · rw [e2]
    cases hcmp : F64.ge n.value w <;> simp [hcmp, Chain.fail_failed, h]
  · rw [e3]
    cases hcmp : F64.lt n.value w <;> simp [hcmp, Chain.fail_failed, h]
  · rw [e4]
    cases hcmp : F64.le n.value w <;> simp [hcmp, Chain.fail_failed, h]
  · intro hcmp
    rw [e1]
    simp [hcmp, Chain.fail_of_ok _ _ h]
  · intro hcmp
    rw [e2]
    simp [hcmp, Chain.fail_of_ok _ _ h]
  · intro hcmp
    rw [e3]
    simp [hcmp, Chain.fail_of_ok _ _ h]
  · intro hcmp
    rw [e4]
    simp [hcmp, Chain.fail_of_ok _ _ h]

/-- Witness for C5: Number(123).Gt(122) succeeds, and Number(123).Lt(122)
records exactly one failure while keeping the payload. -/
theorem order_comparisons_witness :
    (Number.Gt ⟨⟨false, []⟩, F64.val 123⟩ (GoValue.goInt32 122)).chain.failed
      = false ∧
    (Number.Lt ⟨⟨false, []⟩, F64.val 123⟩ (GoValue.goInt32 122)).chain.reports
      = [FailMsg.numberLt (F64.val 122) (F64.val 123)] :=
  ⟨(order_comparisons_exact ⟨⟨false, []⟩, F64.val 123⟩ (GoValue.goInt32 122)
      (F64.val 122) rfl (by decide)).1.mpr (by decide),
   ((order_comparisons_exact ⟨⟨false, []⟩, F64.val 123⟩ (GoValue.goInt32 122)
      (F64.val 122) rfl (by decide)).2.2.2.2.2.2.1 (by decide)).1⟩

/-- C9: on a NaN payload, `Equal` fails for every numeric operand — NaN
included, since exact float64 equality is not reflexive on NaN —
`NotEqual` succeeds for every numeric operand, and `InRange` fails for all
numeric bounds. -/
theorem nan_payload_comparisons (n : Number) (g gmin gmax : GoValue)
    (w a b : F64)
    (hv : n.value = F64.nan)
    (hg : canonNumber n.chain g = (n.chain, some w))
    (ha : canonNumber n.chain gmin = (n.chain, some a))
    (hb : canonNumber n.chain gmax = (n.chain, some b)) :
    (n.Equal g).chain.failed = true ∧
    n.NotEqual g = n ∧
    (n.InRange gmin gmax).chain.failed = true := by
  have hbeq : F64.beq n.value w = false := by
    rw [hv]
    cases w <;> rfl
  have hge : F64.ge n.value a = false := by
    rw [hv]
    cases a <;> rfl
  refine ⟨?_, ?_, ?_⟩
  · simp [Number.Equal, hg, hbeq, Chain.fail_failed]
  · simp [Number.NotEqual, hg, hbeq]
  · simp [Number.InRange, ha, hb, hge, Chain.fail_failed]

/-- Witness for C9: a NaN Number compared with the NaN operand itself
fails `Equal` and succeeds `NotEqual`, and fails `InRange 0 5`. -/
theorem nan_payload_witness :
    (Number.Equal ⟨⟨false, []⟩, F64.nan⟩
        (GoValue.goFloat64 F64.nan)).chain.failed = true ∧
    Number.NotEqual ⟨⟨false, []⟩, F64.nan⟩ (GoValue.goFloat64 F64.nan) =
      ⟨⟨false, []⟩, F64.nan⟩ ∧
    (Number.InRange ⟨⟨false, []⟩, F64.nan⟩
        (GoValue.goInt32 0) (GoValue.goInt32 5)).chain.failed = true := by
  have hmain := nan_payload_comparisons ⟨⟨false, []⟩, F64.nan⟩
    (GoValue.goFloat64 F64.nan) (GoValue.goInt32 0) (GoValue.goInt32 5)
    F64.nan (F64.val 0) (F64.val 5) rfl (by decide) (by decide) (by decide)
  exact hmain

/-- C10: `InRange` canonicalizes the min operand before the max operand
and returns as soon as min is non-numeric: the max operand is never
examined (the result does not depend on it), the result is exactly one
`fail` applied to the receiver's chain, and at most one failure message is
recorded per call. -/
theorem inrange_min_canonicalized_first (n : Number) (gmin gmax gmax2 : GoValue)
    (h : gmin.isNumeric = false) :
    n.InRange gmin gmax = n.InRange gmin gmax2 ∧
    n.InRange gmin gmax = ⟨n.chain.fail FailMsg.notNumber, n.value⟩ ∧
    (n.InRange gmin gmax).chain.reports.length ≤ n.chain.reports.length + 1 := by
  have hcg := canonNumber_non_numeric n.chain gmin h
  have e : n.InRange gmin gmax = ⟨n.chain.fail FailMsg.notNumber, n.value⟩ := by
    simp only [Number.InRange, hcg]
  have e2 : n.InRange gmin gmax2 = ⟨n.chain.fail FailMsg.notNumber, n.value⟩ := by
    simp only [Number.InRange, hcg]
  refine ⟨e.trans e2.symm, e, ?_⟩
  rw [e]
  exact Chain.fail_reports_le n.chain FailMsg.notNumber

/-- Witness for C10: a non-numeric min operand makes InRange fail once,
whatever the max operand is. -/
theorem inrange_min_first_witness :
    Number.InRange ⟨⟨false, []⟩, F64.val 1⟩ (GoValue.goString "no")
        (GoValue.goBool true) =
      Number.InRange ⟨⟨false, []⟩, F64.val 1⟩ (GoValue.goString "no")
        GoValue.goNil :=
  (inrange_min_canonicalized_first ⟨⟨false, []⟩, F64.val 1⟩
    (GoValue.goString "no") (GoValue.goBool true) GoValue.goNil rfl).1
